import Mathlib

/-!
Verification of the AT-protocol client (serial "AT command" interface).

The Rust source is shallowly embedded: byte buffers (`&[u8]`, `Vec<u8>`)
become `List Nat` (each element an octet value), string operations are
modelled at the byte level exactly as the source performs them
(`str.bytes().position`, byte-index slicing, `str::lines`, `str::trim`),
fallible decoding returns an explicit result type, and every `unwrap()`
in the source is modelled as an explicit `panicked` outcome.
-/

/-- Bytes of an ASCII string literal (used only on ASCII literals, where
Rust source bytes and chars coincide). -/
def asciiBytes (s : String) : List Nat :=
  s.data.map Char.toNat

/-- Rust `slice::ends_with`: the needle is no longer than the haystack and
equals its trailing bytes. -/
def endsWith (haystack needle : List Nat) : Bool :=
  decide (needle.length ≤ haystack.length) &&
    decide (haystack.drop (haystack.length - needle.length) = needle)

/-- Rust `str::starts_with` at the byte level: the needle equals the
leading bytes of the haystack. -/
def beginsWith (needle haystack : List Nat) : Bool :=
  decide (haystack.take needle.length = needle)

/-- Rust `Iterator::position` over bytes: index of the first occurrence of
`find`, if any. -/
def bytePos (find : Nat) : List Nat → Option Nat
  | [] => none
  | b :: rest => if b = find then some 0 else (bytePos find rest).map (· + 1)

/-- Third byte of the three-byte UTF-8 whitespace characters led by
E2 80: U+2000-U+200A (80-8A), U+2028 (A8), U+2029 (A9), U+202F (AF). -/
def wsTwoEighty (b : Nat) : Bool :=
  (128 ≤ b && b ≤ 138) || b = 168 || b = 169 || b = 175

/-- Strip every leading character with the Unicode White_Space property
(the set `char::is_whitespace` recognises: U+0009-U+000D, U+0020, U+0085,
U+00A0, U+1680, U+2000-U+200A, U+2028, U+2029, U+202F, U+3000), working
on the UTF-8 bytes.  On valid UTF-8 — the only input the source ever
trims, `from_utf8` having succeeded first — a leading byte sequence equal
to one of these encodings is exactly a leading whitespace character. -/
def trimStartChar : List Nat → List Nat
  | 9 :: r => trimStartChar r
  | 10 :: r => trimStartChar r
  | 11 :: r => trimStartChar r
  | 12 :: r => trimStartChar r
  | 13 :: r => trimStartChar r
  | 32 :: r => trimStartChar r
  | 194 :: 133 :: r => trimStartChar r
  | 194 :: 160 :: r => trimStartChar r
  | 225 :: 154 :: 128 :: r => trimStartChar r
  | 226 :: 128 :: b :: r =>
    if wsTwoEighty b then trimStartChar r else 226 :: 128 :: b :: r
  | 226 :: 129 :: 159 :: r => trimStartChar r
  | 227 :: 128 :: 128 :: r => trimStartChar r
  | l => l

/-- Strip every trailing White_Space character, given the byte list in
reversed order (each UTF-8 encoding appears reversed).  Every multi-byte
whitespace encoding ends its character at the matched lead byte, and in
valid UTF-8 a lead or ASCII byte only occurs at a character boundary, so
a matched suffix is exactly a trailing whitespace character. -/
def trimEndRevChar : List Nat → List Nat
  | 9 :: r => trimEndRevChar r
  | 10 :: r => trimEndRevChar r
  | 11 :: r => trimEndRevChar r
  | 12 :: r => trimEndRevChar r
  | 13 :: r => trimEndRevChar r
  | 32 :: r => trimEndRevChar r
  | 133 :: 194 :: r => trimEndRevChar r
  | 160 :: 194 :: r => trimEndRevChar r
  | 128 :: 154 :: 225 :: r => trimEndRevChar r
  | 159 :: 129 :: 226 :: r => trimEndRevChar r
  | 128 :: 128 :: 227 :: r => trimEndRevChar r
  | b :: 128 :: 226 :: r =>
    if wsTwoEighty b then trimEndRevChar r else b :: 128 :: 226 :: r
  | l => l

/-- Rust `str::trim`: remove leading and trailing characters with the
Unicode White_Space property, at the UTF-8 byte level. -/
def rustTrim (l : List Nat) : List Nat :=
  (trimEndRevChar (trimStartChar l).reverse).reverse

/-- Helper for `rustLines`: split after every line-feed byte, keeping the
line feed with its chunk (Rust `split_inclusive`); a final chunk without a
line feed is kept, an empty tail is not. -/
def linesGo (acc : List Nat) : List Nat → List (List Nat)
  | [] => if acc.isEmpty then [] else [acc.reverse]
  | b :: rest =>
    if b = 10 then (acc.reverse ++ [10]) :: linesGo [] rest
    else linesGo (b :: acc) rest

/-- Helper for `rustLines`: remove one trailing line feed, and then one
trailing carriage return only if the line feed was removed (exactly the
mapping Rust `str::lines` applies to each inclusive chunk). -/
def stripLineEnd (line : List Nat) : List Nat :=
  if endsWith line [10] then
    let l2 := line.dropLast
    if endsWith l2 [13] then l2.dropLast else l2
  else line

/-- Rust `str::lines` at the byte level. -/
def rustLines (s : List Nat) : List (List Nat) :=
  (linesGo [] s).map stripLineEnd

/-- UTF-8 continuation byte (0x80–0xBF). -/
def isCont (b : Nat) : Bool :=
  128 ≤ b && b ≤ 191

/-- UTF-8 validity of a byte sequence, as checked by Rust
`str::from_utf8` / `String::from_utf8` (rejecting overlong forms,
surrogates and values above U+10FFFF). -/
def validUtf8 : List Nat → Bool
  | [] => true
  | b :: rest =>
    if b ≤ 127 then validUtf8 rest
    else if 194 ≤ b && b ≤ 223 then
      match rest with
      | c :: rest2 => isCont c && validUtf8 rest2
      | [] => false
    else if b = 224 then
      match rest with
      | c1 :: c2 :: rest2 => (160 ≤ c1 && c1 ≤ 191) && isCont c2 && validUtf8 rest2
      | _ => false
    else if (225 ≤ b && b ≤ 236) || b = 238 || b = 239 then
      match rest with
      | c1 :: c2 :: rest2 => isCont c1 && isCont c2 && validUtf8 rest2
      | _ => false
    else if b = 237 then
      match rest with
      | c1 :: c2 :: rest2 => (128 ≤ c1 && c1 ≤ 159) && isCont c2 && validUtf8 rest2
      | _ => false
    else if b = 240 then
      match rest with
      | c1 :: c2 :: c3 :: rest2 =>
        (144 ≤ c1 && c1 ≤ 191) && isCont c2 && isCont c3 && validUtf8 rest2
      | _ => false
    else if 241 ≤ b && b ≤ 243 then
      match rest with
      | c1 :: c2 :: c3 :: rest2 => isCont c1 && isCont c2 && isCont c3 && validUtf8 rest2
      | _ => false
    else if b = 244 then
      match rest with
      | c1 :: c2 :: c3 :: rest2 =>
        (128 ≤ c1 && c1 ≤ 143) && isCont c2 && isCont c3 && validUtf8 rest2
      | _ => false
    else false

/-- Decimal-digit accumulator for integer parsing (`from_str_radix` with
radix 10): fails on any non-digit byte. -/
def digitsAcc (acc : Nat) : List Nat → Option Nat
  | [] => some acc
  | b :: rest =>
    if 48 ≤ b && b ≤ 57 then digitsAcc (acc * 10 + (b - 48)) rest else none

/-- Digits-only parse of a byte string to a natural number; fails on an
empty string or any non-digit byte. -/
def digitsToNat : List Nat → Option Nat
  | [] => none
  | l => digitsAcc 0 l

/-- Rust `str::parse::<u8>()`: optional leading '+', decimal digits,
value at most 255. -/
def parseU8 (s : List Nat) : Option Nat :=
  match s with
  | 43 :: rest => (digitsToNat rest).bind fun n => if n ≤ 255 then some n else none
  | _ => (digitsToNat s).bind fun n => if n ≤ 255 then some n else none

/-- Rust `str::parse::<i16>()`: optional sign, decimal digits, value in
the i16 range. -/
def parseI16 (s : List Nat) : Option Int :=
  match s with
  | 45 :: rest => (digitsToNat rest).bind fun n =>
      if n ≤ 32768 then some (-(n : Int)) else none
  | 43 :: rest => (digitsToNat rest).bind fun n =>
      if n ≤ 32767 then some ((n : Int)) else none
  | _ => (digitsToNat s).bind fun n =>
      if n ≤ 32767 then some ((n : Int)) else none

/-- Structured content of the `Error::Custom` decode errors raised by the
parsers (the source formats these values into a message string). -/
inductive DecodeErr where
  | invalidResponse (buffer : List Nat)
  | unknownWifiMode (b : Nat)
  | invalidEcn (raw : List Nat)
  | invalidRssi (raw : List Nat)
  | invalidChannel (raw : List Nat)
  | charNotFound (find : Nat) (s : List Nat)
deriving DecidableEq, Repr

instance {ε α : Type} [DecidableEq ε] [DecidableEq α] : DecidableEq (Except ε α)
  | .ok a, .ok b =>
    if h : a = b then .isTrue (congrArg Except.ok h)
    else .isFalse (fun hh => h (Except.ok.inj hh))
  | .ok _, .error _ => .isFalse (fun hh => Except.noConfusion hh)
  | .error _, .ok _ => .isFalse (fun hh => Except.noConfusion hh)
  | .error a, .error b =>
    if h : a = b then .isTrue (congrArg Except.error h)
    else .isFalse (fun hh => h (Except.error.inj hh))

/-- Outcome of a decode routine: success, a structured decode error, or a
panic (an `unwrap()` in the source failing). -/
inductive DecodeResult (α : Type) where
  | ok (a : α)
  | err (e : DecodeErr)
  | panicked
deriving DecidableEq, Repr

/-- Wifi operating mode (`WifiMode`). -/
inductive WifiMode where
  | StationMode
  | ApMode
  | ApStationMode
deriving DecidableEq, Repr

/-- The wire digit of a mode: `self.0 as u8` rendered in decimal
(1, 2 or 3, hence bytes 49–51). -/
def WifiMode.toByte : WifiMode → Nat
  | .StationMode => 49
  | .ApMode => 50
  | .ApStationMode => 51

/-- Encryption scheme of an access point (`ECN`). -/
inductive ECN where
  | Open
  | WEP
  | WPA_PSK
  | WPA2_PSK
  | WPA_WPA2_PSK
  | Unknown (code : Nat)
deriving DecidableEq, Repr

/-- One scanned access point (`AccessPoint`); textual fields kept as the
byte strings the source stores. -/
structure AccessPoint where
  ecn : ECN
  ssid : List Nat
  rssi : Int
  mac : List Nat
  channel : Nat
deriving DecidableEq, Repr

example : rustLines (asciiBytes "a\r\nb") = [asciiBytes "a", asciiBytes "b"] := by decide

example : rustTrim (asciiBytes "  hi \r\n") = asciiBytes "hi" := by decide

example : rustTrim (asciiBytes "No AP" ++ [194, 160]) = asciiBytes "No AP" := by decide

example : parseI16 (asciiBytes "-40") = some (-40) := by decide

example : validUtf8 [255] = false := by decide

/-- Quote stripping applied to an extracted field (`lhs.len() >= 2 &&
lhs.starts_with('"') && lhs.ends_with('"')` then drop first and last byte). -/
def stripQuotes (l : List Nat) : List Nat :=
  if 2 ≤ l.length ∧ l.head? = some 34 ∧ l.getLast? = some 34 then
    (l.drop 1).dropLast
  else l

/-- Loop of `try_get_string_until`: scan `l` (the remainder of `orig`
starting at byte `index`), toggling `inQuotes` at every quote byte before
testing for an unquoted occurrence of `find`. -/
def tgsuGo (orig : List Nat) (find : Nat) : List Nat → Nat → Bool →
    Except DecodeErr (List Nat × List Nat)
  | [], _, _ => .error (.charNotFound find orig)
  | b :: rest, index, inQuotes =>
    let inQ : Bool := if b = 34 then !inQuotes else inQuotes
    if b = find ∧ inQ = false then
      .ok (stripQuotes (orig.take index), orig.drop (index + 1))
    else
      tgsuGo orig find rest (index + 1) inQ

/-- `try_get_string_until`: split off the field before the first unquoted
occurrence of `find` (quotes stripped) and return it with the remainder
after the delimiter; error if no unquoted delimiter exists. -/
def try_get_string_until (s : List Nat) (find : Nat) :
    Except DecodeErr (List Nat × List Nat) :=
  tgsuGo s find s 0 false

/-- `ECN` value of a parsed encryption code (the `match ecn` in
`ListAp::decode`). -/
def ecnOfCode (x : Nat) : ECN :=
  if x = 0 then .Open
  else if x = 1 then .WEP
  else if x = 2 then .WPA_PSK
  else if x = 3 then .WPA2_PSK
  else if x = 4 then .WPA_WPA2_PSK
  else .Unknown x

/-- Field extraction and numeric parsing of one `+CWLAP:` line after the
opening parenthesis (the body of the `for` loop in `ListAp::decode`). -/
def parseApFields (line : List Nat) : Except DecodeErr AccessPoint :=
  match try_get_string_until line 44 with
  | .error e => .error e
  | .ok (ecn, l1) =>
    match try_get_string_until l1 44 with
    | .error e => .error e
    | .ok (ssid, l2) =>
      match try_get_string_until l2 44 with
      | .error e => .error e
      | .ok (rssi, l3) =>
        match try_get_string_until l3 44 with
        | .error e => .error e
        | .ok (mac, l4) =>
          match try_get_string_until l4 41 with
          | .error e => .error e
          | .ok (channel, _l5) =>
            match parseU8 ecn with
            | none => .error (.invalidEcn ecn)
            | some ecnV =>
              match parseI16 rssi with
              | none => .error (.invalidRssi rssi)
              | some rssiV =>
                match parseU8 channel with
                | none => .error (.invalidChannel channel)
                | some chV =>
                  .ok { ecn := ecnOfCode ecnV, ssid := ssid, rssi := rssiV,
                        mac := mac, channel := chV }

/-- Lift the field-level result into a decode outcome. -/
def exceptToResult {α : Type} : Except DecodeErr α → DecodeResult α
  | .ok a => .ok a
  | .error e => .err e

/-- One kept line of `ListAp::decode`: find the opening parenthesis
(`unwrap` modelled as a panic when absent) and parse the fields after it. -/
def listApLine (line : List Nat) : DecodeResult AccessPoint :=
  match bytePos 40 line with
  | none => .panicked
  | some openBracket => exceptToResult (parseApFields (line.drop (openBracket + 1)))

/-- The record-collecting loop of `ListAp::decode` over the kept lines
(the source's early `return Err` modelled by propagating the first
non-success outcome). -/
def listApLines : List (List Nat) → DecodeResult (List AccessPoint)
  | [] => .ok []
  | l :: rest =>
    match listApLine l with
    | .panicked => .panicked
    | .err e => .err e
    | .ok ap =>
      match listApLines rest with
      | .ok aps => .ok (ap :: aps)
      | .err e => .err e
      | .panicked => .panicked

/-- Line filter of `ListAp::decode`. -/
def cwlapTag : List Nat := asciiBytes "+CWLAP:("

/-- `GetWifiMode::encode`. -/
def GetWifiMode.encode : List Nat := asciiBytes "AT+CWMODE?\r\n"

/-- `GetWifiMode::decode`: find the first ':' byte, read the next byte,
and map digits '1'–'3' to the three modes. -/
def GetWifiMode.decode (buffer : List Nat) : DecodeResult WifiMode :=
  match bytePos 58 buffer with
  | none => .err (.invalidResponse buffer)
  | some index =>
    match buffer[index + 1]? with
    | none => .err (.invalidResponse buffer)
    | some next =>
      if next = 49 then .ok .StationMode
      else if next = 50 then .ok .ApMode
      else if next = 51 then .ok .ApStationMode
      else .err (.unknownWifiMode next)

/-- `SetWifiMode::encode`. -/
def SetWifiMode.encode (m : WifiMode) : List Nat :=
  asciiBytes "AT+CWMODE=" ++ [m.toByte] ++ asciiBytes "\r\n"

/-- `ListAp::encode`. -/
def ListAp.encode : List Nat := asciiBytes "AT+CWLAP\r\n"

/-- `ListAp::decode`: `from_utf8(..).unwrap()` (modelled as a panic on
invalid UTF-8), then parse every line starting with the record tag. -/
def ListAp.decode (buffer : List Nat) : DecodeResult (List AccessPoint) :=
  if validUtf8 buffer then
    listApLines ((rustLines buffer).filter (fun l => beginsWith cwlapTag l))
  else .panicked

/-- Escaping applied to one byte by Rust `{:?}` (Debug) formatting of a
string, exact for the ASCII range (bytes 0-127): quote, backslash,
newline, carriage return and tab get two-character escapes, the other
control bytes and DEL become a hexadecimal escape, printable ASCII
(0x20-0x7E) passes through unchanged.  Bytes at or above 128 belong to
multi-byte characters, whose escaping is decided per character (Debug
escapes non-printable characters such as U+0085 but passes printable
ones); this per-byte model leaves them unchanged, so it is faithful only
for ASCII content — every theorem below that relies on bytes passing
through unescaped restricts itself to printable ASCII. -/
def escapeDebugByte (b : Nat) : List Nat :=
  if b = 34 then [92, 34]
  else if b = 92 then [92, 92]
  else if b = 10 then [92, 110]
  else if b = 13 then [92, 114]
  else if b = 9 then [92, 116]
  else if b < 16 then [92, 117, 123, (if b < 10 then 48 + b else 87 + b), 125]
  else if b < 32 then
    [92, 117, 123, 49, (if b < 26 then 38 + b else 81 + b), 125]
  else if b = 127 then [92, 117, 123, 55, 102, 125]
  else [b]

/-- Rust `{:?}` (Debug) formatting of a string value: a quote, the
escaped bytes, a closing quote. -/
def debugQuoted (s : List Nat) : List Nat :=
  [34] ++ s.flatMap escapeDebugByte ++ [34]

/-- `ConnectToAp::encode`: the format string
`AT+CWJAP={:?},{:?}\r\n` applied to ssid and password. -/
def ConnectToAp.encode (ssid password : List Nat) : List Nat :=
  asciiBytes "AT+CWJAP=" ++ debugQuoted ssid ++ asciiBytes "," ++
    debugQuoted password ++ asciiBytes "\r\n"

/-- `GetConnectedAp::encode`. -/
def GetConnectedAp.encode : List Nat := asciiBytes "AT+CWJAP?\r\n"

/-- The "no association" sentinel line. -/
def noApLine : List Nat := asciiBytes "No AP"

/-- `GetConnectedAp::decode`: `from_utf8` unwrap, `lines().nth(1)` unwrap,
trim, sentinel check, then the slice between the first ':' and the first
',' with quotes stripped (every failing `unwrap()` and an out-of-order
slice index modelled as a panic). -/
def GetConnectedAp.decode (input : List Nat) : DecodeResult (Option (List Nat)) :=
  if validUtf8 input then
    match (rustLines input)[1]? with
    | none => .panicked
    | some rawLine =>
      let line := rustTrim rawLine
      if line = noApLine then .ok none
      else
        match bytePos 58 line with
        | none => .panicked
        | some colon =>
          match bytePos 44 line with
          | none => .panicked
          | some comma =>
            if colon + 1 ≤ comma then
              .ok (some (stripQuotes ((line.drop (colon + 1)).take (comma - (colon + 1)))))
            else .panicked
  else .panicked

/-- `Test::encode` (from the `simple_command!` macro instance). -/
def Test.encode : List Nat := asciiBytes "AT\r\n"

/-- `Test::decode`: byte-for-byte equality with the request blob. -/
def Test.decode (buffer : List Nat) : DecodeResult Bool :=
  .ok (decide (buffer = Test.encode))

/-- `Restart::encode`. -/
def Restart.encode : List Nat := asciiBytes "AT+RST\r\n"

/-- `DisconnectFromAp::encode`. -/
def DisconnectFromAp.encode : List Nat := asciiBytes "AT+CWQAP\r\n"

/-- `GetVersion::encode`. -/
def GetVersion.encode : List Nat := asciiBytes "AT+GMR\r\n"

/-- `GetVersion::decode`: `from_utf8` unwrap, position of the first line
feed (unwrap), slice from that position, trim. -/
def GetVersion.decode (buffer : List Nat) : DecodeResult (List Nat) :=
  if validUtf8 buffer then
    match bytePos 10 buffer with
    | none => .panicked
    | some newlinePos => .ok (rustTrim (buffer.drop newlinePos))
  else .panicked

example :
    GetConnectedAp.decode (asciiBytes "AT+CWJAP?\r\nNo AP" ++ [194, 160]) =
      .ok none := by decide

example :
    GetVersion.decode (asciiBytes "AT+GMR\r\nv" ++ [194, 160]) =
      .ok (asciiBytes "v") := by decide

/-- The success marker checked by the receive loop. -/
def ENDPHRASE : List Nat := [13, 10, 79, 75, 13, 10]

/-- The failure marker checked by the receive loop. -/
def ERRORPHRASE : List Nat := [13, 10, 69, 82, 82, 79, 82, 13, 10]

/-- The protocol line terminator. -/
def CRLF : List Nat := [13, 10]

/-- Outcome of the receive loop of `Interface::send`. -/
inductive RecvOutcome where
  | done (body : List Nat)
  | protocolError (text : List Nat)
  | invalidResponse (buffer : List Nat)
  | pending (buffer : List Nat)
  | panicked
deriving DecidableEq, Repr

/-- The receive loop of `Interface::send` driven by the list of chunks the
transport reads return: append each non-empty chunk to the accumulator,
then test the accumulator's trailing bytes against the success and failure
markers; a zero-length read aborts with `InvalidResponse`; exhausting the
chunk list while neither marker has appeared leaves the exchange pending
(the real loop would block on the next read).  The `from_utf8(..).unwrap()`
calls on the success and failure paths are modelled as panics. -/
def recvLoop : List Nat → List (List Nat) → RecvOutcome
  | buffer, [] => .pending buffer
  | buffer, chunk :: rest =>
    if chunk.length = 0 then .invalidResponse buffer
    else
      let buf2 := buffer ++ chunk
      if endsWith buf2 ENDPHRASE then
        let body := buf2.take (buf2.length - ENDPHRASE.length)
        if validUtf8 body then .done body else .panicked
      else if endsWith buf2 ERRORPHRASE then
        if validUtf8 buf2 then .protocolError buf2 else .panicked
      else recvLoop buf2 rest

/-- Result of one `Interface::send` exchange. -/
inductive SendResult (α : Type) where
  | ok (a : α)
  | errProtocol (text : List Nat)
  | errInvalidResponse (buffer : List Nat)
  | errDecode (e : DecodeErr)
  | pending (buffer : List Nat)
  | panickedTerminator
  | panicked
deriving DecidableEq, Repr

/-- Lift a decode outcome into the result of `send`. -/
def liftDecode {α : Type} : DecodeResult α → SendResult α
  | .ok a => .ok a
  | .err e => .errDecode e
  | .panicked => .panicked

/-- `Interface::send`, given the already-encoded request, the command's
decode routine and the chunks the transport will deliver: the debug-build
terminator assertion, the request echo's `from_utf8(..).unwrap()`, the
receive loop and the final decode. -/
def runSession {α : Type} (encoded : List Nat) (decode : List Nat → DecodeResult α)
    (chunks : List (List Nat)) : SendResult α :=
  if endsWith encoded CRLF = false then .panickedTerminator
  else if validUtf8 encoded = false then .panicked
  else
    match recvLoop [] chunks with
    | .done body => liftDecode (decode body)
    | .protocolError t => .errProtocol t
    | .invalidResponse b => .errInvalidResponse b
    | .pending b => .pending b
    | .panicked => .panicked

/-- Claim C2: for every input buffer, `GetWifiMode.decode` returns
`StationMode`, `ApMode` or `ApStationMode` exactly when the byte following
the first ':' is '1', '2' or '3'; any other byte after the first ':' gives
a structured error carrying that byte; and a buffer with no ':' at all, or
no byte after it, gives a structural decode error (never a panic or a
default value). -/
theorem getWifiMode_decode_characterization (buffer : List Nat) :
    (bytePos 58 buffer = none →
      GetWifiMode.decode buffer = .err (.invalidResponse buffer)) ∧
    (∀ i, bytePos 58 buffer = some i →
      (buffer[i + 1]? = none →
        GetWifiMode.decode buffer = .err (.invalidResponse buffer)) ∧
      (∀ b, buffer[i + 1]? = some b →
        GetWifiMode.decode buffer =
          if b = 49 then .ok .StationMode
          else if b = 50 then .ok .ApMode
          else if b = 51 then .ok .ApStationMode
          else .err (.unknownWifiMode b))) := by
  refine ⟨fun h => by simp [GetWifiMode.decode, h], fun i hi => ⟨?_, ?_⟩⟩
  · intro h
    simp [GetWifiMode.decode, hi, h]
  · intro b hb
    simp [GetWifiMode.decode, hi, hb]

/-- Witness for claim C2 at concrete inputs: a '1' digit decodes to
station mode, a '7' digit to the structured unknown-mode error naming
byte 55, and a colon-free buffer to the structural error. -/
theorem getWifiMode_decode_characterization_witness :
    GetWifiMode.decode (asciiBytes "+CWMODE:1") = .ok .StationMode ∧
    GetWifiMode.decode (asciiBytes "+CWMODE:7") = .err (.unknownWifiMode 55) ∧
    GetWifiMode.decode (asciiBytes "garbage") =
      .err (.invalidResponse (asciiBytes "garbage")) := by
  refine ⟨?_, ?_, ?_⟩
  · have h :=
      ((getWifiMode_decode_characterization (asciiBytes "+CWMODE:1")).2 7 (by decide)).2
        49 (by decide)
    simpa using h
  · have h :=
      ((getWifiMode_decode_characterization (asciiBytes "+CWMODE:7")).2 7 (by decide)).2
        55 (by decide)
    simpa using h
  · exact (getWifiMode_decode_characterization (asciiBytes "garbage")).1 (by decide)

/-- Claim C3: on the given two-line scan body, `ListAp.decode` succeeds
with exactly the two records, in order: (Open, Net1, -40,
aa:bb:cc:dd:ee:ff, channel 6) and (Unknown 9, Net2, -70,
11:22:33:44:55:66, channel 11). -/
theorem listAp_decode_two_records :
    ListAp.decode (asciiBytes
        "+CWLAP:(0,\"Net1\",-40,\"aa:bb:cc:dd:ee:ff\",6)\r\n+CWLAP:(9,\"Net2\",-70,\"11:22:33:44:55:66\",11)") =
      .ok
        [{ ecn := .Open, ssid := asciiBytes "Net1", rssi := -40,
           mac := asciiBytes "aa:bb:cc:dd:ee:ff", channel := 6 },
         { ecn := .Unknown 9, ssid := asciiBytes "Net2", rssi := -70,
           mac := asciiBytes "11:22:33:44:55:66", channel := 11 }] := by
  decide

/-- The record tag as explicit bytes. -/
lemma cwlapTag_eq : cwlapTag = [43, 67, 87, 76, 65, 80, 58, 40] := by decide

/-- The first '(' in any extension of the record tag sits right at the end
of the tag, at index 7. -/
lemma bytePos_cwlap (t : List Nat) : bytePos 40 (cwlapTag ++ t) = some 7 := by
  rw [cwlapTag_eq]
  simp [bytePos]

/-- Claim C10: a line that passes the `+CWLAP:(` filter necessarily
contains a '(', found at index 7, so the position `unwrap` in
`ListAp::decode` cannot panic and field extraction starts right after the
first '(' (at byte index 8). -/
theorem listAp_line_paren (line : List Nat)
    (h : beginsWith cwlapTag line = true) :
    bytePos 40 line = some 7 ∧
    listApLine line = exceptToResult (parseApFields (line.drop 8)) ∧
    listApLine line ≠ .panicked := by
  have htake : line.take 8 = cwlapTag := by
    simpa [beginsWith, cwlapTag_eq] using h
  have hline : line = cwlapTag ++ line.drop 8 := by
    conv_lhs => rw [← List.take_append_drop 8 line]
    rw [htake]
  have hdrop : (cwlapTag ++ line.drop 8).drop 8 = line.drop 8 := by
    have : cwlapTag.length = 8 := by decide
    rw [← this, List.drop_left]
  have hpos : bytePos 40 line = some 7 := by
    rw [hline, bytePos_cwlap]
  refine ⟨hpos, ?_, ?_⟩
  · rw [listApLine, hpos]
  · rw [listApLine, hpos]
    rcases hp : parseApFields (line.drop (7 + 1)) with a | e <;>
      simp [exceptToResult, hp]

/-- Witness for claim C10 at a concrete kept line. -/
theorem listAp_line_paren_witness :
    bytePos 40 (asciiBytes "+CWLAP:(0,\"N\",-1,\"m\",1)") = some 7 ∧
    listApLine (asciiBytes "+CWLAP:(0,\"N\",-1,\"m\",1)") =
      exceptToResult (parseApFields ((asciiBytes "+CWLAP:(0,\"N\",-1,\"m\",1)").drop 8)) ∧
    listApLine (asciiBytes "+CWLAP:(0,\"N\",-1,\"m\",1)") ≠ .panicked :=
  listAp_line_paren _ (by decide)

/-- Number of quote bytes in a byte string. -/
def countQ (l : List Nat) : Nat := l.countP (fun b => decide (b = 34))

lemma countQ_take_succ (orig : List Nat) (idx b : Nat)
    (hb : orig[idx]? = some b) :
    countQ (orig.take (idx + 1)) =
      countQ (orig.take idx) + (if b = 34 then 1 else 0) := by
  rw [List.take_succ, hb]
  by_cases h : b = 34 <;> simp [countQ, List.countP_append, List.countP_cons, h]

lemma tgsuGo_ok_spec (orig : List Nat) (find : Nat) (hf : find ≠ 34) :
    ∀ (l : List Nat) (idx : Nat) (lhs rhs : List Nat),
      l = orig.drop idx →
      tgsuGo orig find l idx (decide (countQ (orig.take idx) % 2 = 1)) =
        .ok (lhs, rhs) →
      ∃ i, idx ≤ i ∧ orig[i]? = some find ∧ countQ (orig.take i) % 2 = 0 ∧
        lhs = stripQuotes (orig.take i) ∧ rhs = orig.drop (i + 1) ∧
        ∀ j, idx ≤ j → j < i → orig[j]? = some find →
          countQ (orig.take j) % 2 = 1 := by
  intro l
  induction l with
  | nil =>
    intro idx lhs rhs _ hok
    simp [tgsuGo] at hok
  | cons b rest ih =>
    intro idx lhs rhs hl hok
    have hidx : idx < orig.length := by
      by_contra hge
      have : orig.drop idx = [] := List.drop_eq_nil_of_le (by omega)
      rw [← hl] at this
      exact List.cons_ne_nil _ _ this
    have hcons : orig.drop idx = orig[idx] :: orig.drop (idx + 1) :=
      List.drop_eq_getElem_cons hidx
    have hb : orig[idx] = b := by
      rw [hcons] at hl
      exact (List.cons.injEq _ _ _ _ ▸ hl).1.symm
    have hrest : rest = orig.drop (idx + 1) := by
      rw [hcons] at hl
      exact (List.cons.injEq _ _ _ _ ▸ hl).2
    have hbq : orig[idx]? = some b := by
      rw [List.getElem?_eq_getElem hidx, hb]
    have hcnt := countQ_take_succ orig idx b hbq
    set c := countQ (orig.take idx) with hc
    set inq := decide (c % 2 = 1) with hinq
    have hinQ : (if b = 34 then !inq else inq) =
        decide (countQ (orig.take (idx + 1)) % 2 = 1) := by
      by_cases h34 : b = 34
      · rw [if_pos h34, hcnt, if_pos h34]
        rcases Nat.mod_two_eq_zero_or_one c with h | h
        · have h1 : (c + 1) % 2 = 1 := by omega
          simp [hinq, h, h1]
        · have h1 : (c + 1) % 2 = 0 := by omega
          simp [hinq, h, h1]
      · rw [if_neg h34, hcnt, if_neg h34]
        simp [hinq]
    by_cases hcond : b = find ∧ (if b = 34 then !inq else inq) = false
    · rw [tgsuGo, if_pos hcond] at hok
      obtain ⟨hbf, hinq0⟩ := hcond
      have hb34 : b ≠ 34 := hbf ▸ hf
      rw [if_neg hb34, hinq] at hinq0
      have hpar : c % 2 = 0 := by
        have h' := of_decide_eq_false hinq0
        omega
      simp only [Except.ok.injEq, Prod.mk.injEq] at hok
      refine ⟨idx, le_refl idx, ?_, hpar, hok.1.symm, hok.2.symm, ?_⟩
      · rw [hbq, hbf]
      · intro j h1 h2 _
        omega
    · rw [tgsuGo, if_neg hcond] at hok
      rw [hinQ] at hok
      obtain ⟨i, hi1, hi2, hi3, hi4, hi5, hi6⟩ :=
        ih (idx + 1) lhs rhs hrest hok
      refine ⟨i, by omega, hi2, hi3, hi4, hi5, ?_⟩
      intro j hj1 hj2 hjf
      by_cases hji : idx + 1 ≤ j
      · exact hi6 j hji hj2 hjf
      · have hj : j = idx := by omega
        subst hj
        have hbf : b = find := by
          rw [hbq] at hjf
          exact Option.some.inj hjf
        have hb34 : b ≠ 34 := hbf ▸ hf
        have hne : (if b = 34 then !inq else inq) ≠ false := fun hfalse =>
          hcond ⟨hbf, hfalse⟩
        rw [if_neg hb34, hinq] at hne
        exact of_decide_eq_true (Bool.ne_false_iff.mp hne)

/-- Claim C4: whenever the field scanner succeeds, it splits at the first
occurrence of the delimiter that is preceded by an even number of quote
bytes; every earlier delimiter byte lies between an odd number of
preceding quotes (inside quotes) and is treated as ordinary content; the
extracted field is the scanned text with a surrounding quote pair
stripped, the remainder is everything after the delimiter. -/
theorem tgsu_quote_aware (s : List Nat) (find : Nat) (hf : find ≠ 34)
    (lhs rhs : List Nat)
    (h : try_get_string_until s find = .ok (lhs, rhs)) :
    ∃ i, s[i]? = some find ∧ countQ (s.take i) % 2 = 0 ∧
      lhs = stripQuotes (s.take i) ∧ rhs = s.drop (i + 1) ∧
      ∀ j, j < i → s[j]? = some find → countQ (s.take j) % 2 = 1 := by
  have h0 : (decide (countQ (s.take 0) % 2 = 1)) = false := by
    simp [countQ]
  have hgo : tgsuGo s find s 0 (decide (countQ (s.take 0) % 2 = 1)) =
      .ok (lhs, rhs) := by
    rw [h0]
    exact h
  obtain ⟨i, _, hi2, hi3, hi4, hi5, hi6⟩ :=
    tgsuGo_ok_spec s find hf s 0 lhs rhs (by simp) hgo
  exact ⟨i, hi2, hi3, hi4, hi5, fun j hj => hi6 j (Nat.zero_le j) hj⟩

/-- Witness for claim C4: the quoted field containing the comma delimiter
is extracted whole with the quotes stripped, and the split position 5 has
an even number of preceding quotes while the embedded delimiter at
position 2 has an odd number. -/
theorem tgsu_quote_aware_witness :
    try_get_string_until (asciiBytes "\"a,b\",c") 44 =
      .ok (asciiBytes "a,b", asciiBytes "c") ∧
    (∃ i, (asciiBytes "\"a,b\",c")[i]? = some 44 ∧
      countQ ((asciiBytes "\"a,b\",c").take i) % 2 = 0 ∧
      asciiBytes "a,b" = stripQuotes ((asciiBytes "\"a,b\",c").take i) ∧
      asciiBytes "c" = (asciiBytes "\"a,b\",c").drop (i + 1) ∧
      ∀ j, j < i → (asciiBytes "\"a,b\",c")[j]? = some 44 →
        countQ ((asciiBytes "\"a,b\",c").take j) % 2 = 1) :=
  ⟨by decide,
   tgsu_quote_aware (asciiBytes "\"a,b\",c") 44 (by decide)
     (asciiBytes "a,b") (asciiBytes "c") (by decide)⟩

lemma tgsuGo_error_shape (orig : List Nat) (find : Nat) :
    ∀ (l : List Nat) (idx : Nat) (inq : Bool) (e : DecodeErr),
      tgsuGo orig find l idx inq = .error e →
      e = .charNotFound find orig := by
  intro l
  induction l with
  | nil =>
    intro idx inq e h
    simp only [tgsuGo, Except.error.injEq] at h
    exact h.symm
  | cons b rest ih =>
    intro idx inq e h
    rw [tgsuGo] at h
    by_cases hcond : b = find ∧ (if b = 34 then !inq else inq) = false
    · rw [if_pos hcond] at h
      exact absurd h (by simp)
    · rw [if_neg hcond] at h
      exact ih _ _ _ h

/-- After a successful extraction and integer parse of the encryption
field, field parsing either fails for a reason other than that field, or
succeeds with the encryption mapped through the code table. -/
lemma parseApFields_after_ecn (line ecnStr l1 : List Nat) (v : Nat)
    (h1 : try_get_string_until line 44 = .ok (ecnStr, l1))
    (h2 : parseU8 ecnStr = some v) :
    (∃ e, parseApFields line = .error e ∧ e ≠ .invalidEcn ecnStr) ∨
    (∃ ap, parseApFields line = .ok ap ∧ ap.ecn = ecnOfCode v) := by
  simp only [parseApFields, h1]
  rcases h3 : try_get_string_until l1 44 with e3 | ⟨ssid, l2⟩
  · have he := tgsuGo_error_shape l1 44 l1 0 false e3 h3
    subst he
    exact Or.inl ⟨_, rfl, by simp⟩
  · dsimp only
    rcases h4 : try_get_string_until l2 44 with e4 | ⟨rssi, l3⟩
    · have he := tgsuGo_error_shape l2 44 l2 0 false e4 h4
      subst he
      exact Or.inl ⟨_, rfl, by simp⟩
    · dsimp only
      rcases h5 : try_get_string_until l3 44 with e5 | ⟨mac, l4⟩
      · have he := tgsuGo_error_shape l3 44 l3 0 false e5 h5
        subst he
        exact Or.inl ⟨_, rfl, by simp⟩
      · dsimp only
        rcases h6 : try_get_string_until l4 41 with e6 | ⟨chan, l5⟩
        · have he := tgsuGo_error_shape l4 41 l4 0 false e6 h6
          subst he
          exact Or.inl ⟨_, rfl, by simp⟩
        · dsimp only
          rw [h2]
          dsimp only
          rcases h7 : parseI16 rssi with _ | rv
          · exact Or.inl ⟨_, rfl, by simp⟩
          · dsimp only
            rcases h8 : parseU8 chan with _ | cv
            · exact Or.inl ⟨_, rfl, by simp⟩
            · exact Or.inr ⟨_, rfl, rfl⟩

/-- Claim C5: when the encryption-code field parses as a non-negative
integer v, field parsing never fails on account of that field; a value
outside the five known codes yields the Unknown variant carrying v on any
successful record, and exactly the five codes 0-4 map to the five named
encryption schemes. -/
theorem listAp_ecn_fallback (line ecnStr l1 : List Nat) (v : Nat)
    (h1 : try_get_string_until line 44 = .ok (ecnStr, l1))
    (h2 : parseU8 ecnStr = some v) :
    parseApFields line ≠ .error (.invalidEcn ecnStr) ∧
    (∀ ap, parseApFields line = .ok ap → ap.ecn = ecnOfCode v) ∧
    (5 ≤ v → ecnOfCode v = .Unknown v) ∧
    ecnOfCode 0 = .Open ∧ ecnOfCode 1 = .WEP ∧ ecnOfCode 2 = .WPA_PSK ∧
    ecnOfCode 3 = .WPA2_PSK ∧ ecnOfCode 4 = .WPA_WPA2_PSK := by
  have hbig : 5 ≤ v → ecnOfCode v = .Unknown v := by
    intro hv
    simp only [ecnOfCode]
    rw [if_neg (by omega), if_neg (by omega), if_neg (by omega),
      if_neg (by omega), if_neg (by omega)]
  obtain ⟨e, he, hne⟩ | ⟨ap, hap, hecn⟩ :=
    parseApFields_after_ecn line ecnStr l1 v h1 h2
  · refine ⟨?_, ?_, hbig, by simp [ecnOfCode], by simp [ecnOfCode],
      by simp [ecnOfCode], by simp [ecnOfCode], by simp [ecnOfCode]⟩
    · rw [he]
      exact fun hh => hne (Except.error.inj hh)
    · intro ap hap
      rw [he] at hap
      exact absurd hap (by simp)
  · refine ⟨?_, ?_, hbig, by simp [ecnOfCode], by simp [ecnOfCode],
      by simp [ecnOfCode], by simp [ecnOfCode], by simp [ecnOfCode]⟩
    · rw [hap]
      simp
    · intro ap2 hap2
      rw [hap] at hap2
      rw [← Except.ok.inj hap2]
      exact hecn

/-- Witness for claim C5: concrete scan-line fields with code 9, which is
outside the known range 0-4. -/
theorem listAp_ecn_fallback_witness :
    parseApFields (asciiBytes "9,\"Net2\",-70,\"11:22:33:44:55:66\",11)") ≠
      .error (.invalidEcn (asciiBytes "9")) ∧
    ecnOfCode 9 = .Unknown 9 := by
  have h := listAp_ecn_fallback
    (asciiBytes "9,\"Net2\",-70,\"11:22:33:44:55:66\",11)")
    (asciiBytes "9")
    (asciiBytes "\"Net2\",-70,\"11:22:33:44:55:66\",11)")
    9 (by decide) (by decide)
  exact ⟨h.1, h.2.2.1 (by omega)⟩

lemma bytePos_getElem (find : Nat) :
    ∀ (l : List Nat) (i : Nat), bytePos find l = some i → l[i]? = some find := by
  intro l
  induction l with
  | nil =>
    intro i h
    simp [bytePos] at h
  | cons b rest ih =>
    intro i h
    rw [bytePos] at h
    by_cases hb : b = find
    · rw [if_pos hb] at h
      have : i = 0 := (Option.some.inj h).symm
      subst this
      simp [hb]
    · rw [if_neg hb] at h
      obtain ⟨j, hj, rfl⟩ := Option.map_eq_some'.mp h
      simpa using ih j hj

lemma rustTrim_cons_lf (l : List Nat) : rustTrim (10 :: l) = rustTrim l := rfl

/-- Claim C7 (amended): `GetVersion.decode` finds the first line feed,
keeps the rest of the buffer from that position and trims Unicode
whitespace — which equals discarding everything up to and including the
line feed and trimming; but on a buffer with no line terminator, or one
that is not valid UTF-8, it panics (an `unwrap()`), it does not return a
decode error. -/
theorem getVersion_decode_spec (buffer : List Nat) :
    (validUtf8 buffer = false → GetVersion.decode buffer = .panicked) ∧
    (validUtf8 buffer = true → bytePos 10 buffer = none →
      GetVersion.decode buffer = .panicked) ∧
    (∀ p, validUtf8 buffer = true → bytePos 10 buffer = some p →
      GetVersion.decode buffer = .ok (rustTrim (buffer.drop (p + 1)))) := by
  refine ⟨fun h => by simp [GetVersion.decode, h],
    fun hU hn => by simp [GetVersion.decode, hU, hn], ?_⟩
  intro p hU hp
  have hget : buffer[p]? = some 10 := bytePos_getElem 10 buffer p hp
  have hlt : p < buffer.length := by
    by_contra hge
    rw [List.getElem?_eq_none (by omega)] at hget
    exact Option.noConfusion hget
  have hdrop : buffer.drop p = 10 :: buffer.drop (p + 1) := by
    rw [List.drop_eq_getElem_cons hlt]
    have : buffer[p] = 10 := by
      rw [List.getElem?_eq_getElem hlt] at hget
      exact Option.some.inj hget
    rw [this]
  simp only [GetVersion.decode, hU, if_true, hp]
  rw [hdrop, rustTrim_cons_lf]

/-- Witness for claim C7 on a well-formed version body: the echo line is
discarded and the rest is trimmed. -/
theorem getVersion_decode_spec_witness :
    GetVersion.decode (asciiBytes "AT+GMR\r\nv1.1.0.0\r\n") =
      .ok (asciiBytes "v1.1.0.0") := by
  have h := (getVersion_decode_spec (asciiBytes "AT+GMR\r\nv1.1.0.0\r\n")).2.2
    7 (by decide) (by decide)
  rw [h]
  decide

/-- Counterexample to claim C7 as stated: on a buffer with no line
terminator, `GetVersion.decode` panics (the position `unwrap`), instead of
failing with a decode error. -/
theorem getVersion_decode_no_newline_panics :
    GetVersion.decode (asciiBytes "no newline at all") = .panicked := by
  decide

/-- Claim C6 (amended): `GetConnectedAp.decode` skips the echoed first
line and trims the second; a trimmed second line equal to the "No AP"
sentinel gives none; otherwise the result is the substring strictly
between the first ':' and the first ',' with a surrounding quote pair
stripped; but a missing ':' or ',', a body with fewer than two lines, an
invalid text encoding — or a first ',' before the first ':' — make the
decode panic (failing `unwrap()`s or an out-of-order slice), not return a
decode error. -/
theorem getConnectedAp_decode_spec (input : List Nat) :
    (validUtf8 input = false → GetConnectedAp.decode input = .panicked) ∧
    (validUtf8 input = true → (rustLines input)[1]? = none →
      GetConnectedAp.decode input = .panicked) ∧
    (∀ rawLine, validUtf8 input = true → (rustLines input)[1]? = some rawLine →
      ((rustTrim rawLine = noApLine → GetConnectedAp.decode input = .ok none) ∧
       (rustTrim rawLine ≠ noApLine → bytePos 58 (rustTrim rawLine) = none →
         GetConnectedAp.decode input = .panicked) ∧
       (∀ colon, rustTrim rawLine ≠ noApLine →
         bytePos 58 (rustTrim rawLine) = some colon →
         bytePos 44 (rustTrim rawLine) = none →
         GetConnectedAp.decode input = .panicked) ∧
       (∀ colon comma, rustTrim rawLine ≠ noApLine →
         bytePos 58 (rustTrim rawLine) = some colon →
         bytePos 44 (rustTrim rawLine) = some comma →
         (colon + 1 ≤ comma →
           GetConnectedAp.decode input = .ok (some (stripQuotes
             (((rustTrim rawLine).drop (colon + 1)).take (comma - (colon + 1)))))) ∧
         (comma < colon + 1 → GetConnectedAp.decode input = .panicked)))) := by
  refine ⟨fun h => by simp [GetConnectedAp.decode, h],
    fun hU hn => by simp [GetConnectedAp.decode, hU, hn], ?_⟩
  intro rawLine hU hl
  refine ⟨fun hno => by simp [GetConnectedAp.decode, hU, hl, hno], ?_, ?_, ?_⟩
  · intro hno hc
    simp [GetConnectedAp.decode, hU, hl, hno, hc]
  · intro colon hno hc hm
    simp [GetConnectedAp.decode, hU, hl, hno, hc, hm]
  · intro colon comma hno hc hm
    constructor
    · intro hle
      simp [GetConnectedAp.decode, hU, hl, hno, hc, hm, hle]
    · intro hlt
      have hnle : ¬(colon + 1 ≤ comma) := by omega
      simp [GetConnectedAp.decode, hU, hl, hno, hc, hm, hnle]

/-- Witness for claim C6 on the two documented shapes: a connected body
decodes to the network name, a "No AP" body decodes to none. -/
theorem getConnectedAp_decode_spec_witness :
    GetConnectedAp.decode
        (asciiBytes "AT+CWJAP?\r\n+CWJAP:\"Home\",\"0c:d6\",8") =
      .ok (some (asciiBytes "Home")) ∧
    GetConnectedAp.decode (asciiBytes "AT+CWJAP?\r\nNo AP") = .ok none := by
  constructor
  · have h := (((getConnectedAp_decode_spec
        (asciiBytes "AT+CWJAP?\r\n+CWJAP:\"Home\",\"0c:d6\",8")).2.2
        (asciiBytes "+CWJAP:\"Home\",\"0c:d6\",8") (by decide)
        (by decide)).2.2.2 6 13 (by decide) (by decide) (by decide)).1
      (by omega)
    rw [h]
    decide
  · exact ((getConnectedAp_decode_spec (asciiBytes "AT+CWJAP?\r\nNo AP")).2.2
      (asciiBytes "No AP") (by decide) (by decide)).1 (by decide)

/-- Counterexample to claim C6 as stated: on a one-line body the decode
panics (the `nth(1)` `unwrap()`), instead of reporting a decode error. -/
theorem getConnectedAp_decode_one_line_panics :
    GetConnectedAp.decode (asciiBytes "AT+CWJAP?") = .panicked := by
  decide

lemma flatMap_singleton (f : Nat → List Nat) :
    ∀ l : List Nat, (∀ b ∈ l, f b = [b]) → l.flatMap f = l := by
  intro l
  induction l with
  | nil => simp
  | cons b rest ih =>
    intro h
    have hb := h b (by simp)
    have hr : ∀ x ∈ rest, f x = [x] := fun x hx => h x (by simp [hx])
    simp [hb, ih hr]

/-- A printable ASCII byte other than the quote and the backslash is
passed through unchanged by Debug escaping (true of the model here and of
Rust `char::escape_debug` on these characters). -/
lemma escapeDebugByte_printable (b : Nat) (h1 : 32 ≤ b) (h2 : b ≤ 126)
    (h3 : b ≠ 34) (h4 : b ≠ 92) : escapeDebugByte b = [b] := by
  rw [escapeDebugByte, if_neg h3, if_neg h4, if_neg (by omega),
    if_neg (by omega), if_neg (by omega), if_neg (by omega),
    if_neg (by omega), if_neg (by omega)]

/-- Claim C8 (amended): `ConnectToAp.encode` renders both values with
Debug formatting, which wraps each in one pair of double quotes but also
escapes quotes, backslashes, control characters and other non-printable
characters inside them; for ssid and password consisting of printable
ASCII characters other than the double quote and the backslash — which
Debug formatting passes through unchanged — the output is exactly the
claimed AT+CWJAP="ssid","password" line terminated by CRLF. -/
theorem connectToAp_encode_plain (ssid password : List Nat)
    (h1 : ∀ b ∈ ssid, 32 ≤ b ∧ b ≤ 126 ∧ b ≠ 34 ∧ b ≠ 92)
    (h2 : ∀ b ∈ password, 32 ≤ b ∧ b ≤ 126 ∧ b ≠ 34 ∧ b ≠ 92) :
    ConnectToAp.encode ssid password =
      asciiBytes "AT+CWJAP=\"" ++ ssid ++ asciiBytes "\",\"" ++ password ++
        asciiBytes "\"\r\n" := by
  have e1 : ∀ b ∈ ssid, escapeDebugByte b = [b] := fun b hb =>
    escapeDebugByte_printable b (h1 b hb).1 (h1 b hb).2.1 (h1 b hb).2.2.1
      (h1 b hb).2.2.2
  have e2 : ∀ b ∈ password, escapeDebugByte b = [b] := fun b hb =>
    escapeDebugByte_printable b (h2 b hb).1 (h2 b hb).2.1 (h2 b hb).2.2.1
      (h2 b hb).2.2.2
  rw [ConnectToAp.encode, debugQuoted, debugQuoted,
    flatMap_singleton _ ssid e1, flatMap_singleton _ password e2]
  have q1 : asciiBytes "AT+CWJAP=\"" = asciiBytes "AT+CWJAP=" ++ [34] := by decide
  have q2 : asciiBytes "\",\"" = ([34] ++ asciiBytes ",") ++ [34] := by decide
  have q3 : asciiBytes "\"\r\n" = [34] ++ asciiBytes "\r\n" := by decide
  rw [q1, q2, q3]
  simp [List.append_assoc]

/-- Witness for claim C8 on escape-free values. -/
theorem connectToAp_encode_plain_witness :
    ConnectToAp.encode (asciiBytes "ssid") (asciiBytes "password") =
      asciiBytes "AT+CWJAP=\"ssid\",\"password\"\r\n" := by
  have h := connectToAp_encode_plain (asciiBytes "ssid") (asciiBytes "password")
    (by decide) (by decide)
  rw [h]
  decide

/-- Counterexample to claim C8 as stated: a ssid consisting of one double
quote is escaped by Debug formatting (a backslash is inserted), so the
characters are not passed through unchanged. -/
theorem connectToAp_encode_escapes_quote :
    ConnectToAp.encode [34] [] ≠ asciiBytes "AT+CWJAP=\"\"\",\"\"\r\n" ∧
    ConnectToAp.encode [34] [] = asciiBytes "AT+CWJAP=\"\\\"\",\"\"\r\n" := by
  decide

lemma endsWith_append (l t : List Nat) : endsWith (l ++ t) t = true := by
  have h1 : t.length ≤ (l ++ t).length := by simp
  have h2 : (l ++ t).drop ((l ++ t).length - t.length) = t := by
    have he : (l ++ t).length - t.length = l.length := by simp
    rw [he, List.drop_left]
  simp [endsWith, h1, h2]

/-- Claim C9: every command encode provided by the crate produces a byte
sequence ending in CRLF, and a CRLF-terminated request never trips the
defensive terminator check of `Interface::send`. -/
theorem encode_terminated :
    endsWith Test.encode CRLF = true ∧
    endsWith Restart.encode CRLF = true ∧
    endsWith DisconnectFromAp.encode CRLF = true ∧
    endsWith GetVersion.encode CRLF = true ∧
    endsWith GetWifiMode.encode CRLF = true ∧
    (∀ m : WifiMode, endsWith (SetWifiMode.encode m) CRLF = true) ∧
    endsWith ListAp.encode CRLF = true ∧
    (∀ ssid password : List Nat,
      endsWith (ConnectToAp.encode ssid password) CRLF = true) ∧
    endsWith GetConnectedAp.encode CRLF = true ∧
    (∀ (α : Type) (decode : List Nat → DecodeResult α) (encoded : List Nat)
      (chunks : List (List Nat)), endsWith encoded CRLF = true →
      runSession encoded decode chunks ≠ SendResult.panickedTerminator) := by
  refine ⟨by decide, by decide, by decide, by decide, by decide, ?_, by decide,
    ?_, by decide, ?_⟩
  · intro m
    cases m <;> decide
  · intro ssid password
    have he : ConnectToAp.encode ssid password =
        (asciiBytes "AT+CWJAP=" ++ debugQuoted ssid ++ asciiBytes "," ++
          debugQuoted password) ++ CRLF := by
      rw [ConnectToAp.encode, show asciiBytes "\r\n" = CRLF from by decide]
    rw [he]
    exact endsWith_append _ _
  · intro α decode encoded chunks h
    rw [runSession, if_neg (by simp [h])]
    by_cases hV : validUtf8 encoded = false
    · rw [if_pos hV]
      simp
    · rw [if_neg hV]
      rcases hr : recvLoop [] chunks with body | tt | bb | bb | _
      · dsimp only
        cases hd : decode body <;> simp [liftDecode, hd]
      · dsimp only
        simp
      · dsimp only
        simp
      · dsimp only
        simp
      · dsimp only
        simp

/-- A buffer ending with the failure marker cannot also end with the
success marker, so the receive loop's second check is reached. -/
lemma error_suffix_not_ok (b : List Nat)
    (h : endsWith b ERRORPHRASE = true) : endsWith b ENDPHRASE = false := by
  have hE : ERRORPHRASE.length = 9 := by decide
  have hK : ENDPHRASE.length = 6 := by decide
  rw [endsWith, hE] at h
  rw [endsWith, hK]
  simp only [Bool.and_eq_true, decide_eq_true_eq] at h
  obtain ⟨hlen, hdrop⟩ := h
  have key : b.drop (b.length - 6) = ERRORPHRASE.drop 3 := by
    rw [← hdrop, List.drop_drop]
    congr 1
    omega
  have hne : ¬(b.drop (b.length - 6) = ENDPHRASE) := by
    rw [key]
    decide
  simp [hne]

/-- Claim C1 (amended): on every read iteration the accumulated buffer's
trailing bytes are tested; a buffer now ending with the success marker has
exactly that marker stripped, and the stripped body is (when the session
completes) what the command's decode receives; a buffer now ending with
the failure marker aborts the exchange with a protocol error carrying the
full accumulated text, and the command's decode is never invoked (the
session's result does not depend on it).  Amendment forced by the source's
`unwrap()` calls: on either path, an accumulated text that is not valid
UTF-8 makes the session panic instead. -/
theorem send_framing (α : Type) (decode : List Nat → DecodeResult α)
    (encoded buffer chunk body t : List Nat) (rest chunks : List (List Nat))
    (hc : chunk ≠ []) :
    (endsWith (buffer ++ chunk) ENDPHRASE = true →
      recvLoop buffer (chunk :: rest) =
        (if validUtf8 ((buffer ++ chunk).take ((buffer ++ chunk).length - 6))
         then RecvOutcome.done
           ((buffer ++ chunk).take ((buffer ++ chunk).length - 6))
         else RecvOutcome.panicked)) ∧
    (endsWith (buffer ++ chunk) ERRORPHRASE = true →
      recvLoop buffer (chunk :: rest) =
        (if validUtf8 (buffer ++ chunk)
         then RecvOutcome.protocolError (buffer ++ chunk)
         else RecvOutcome.panicked)) ∧
    (endsWith encoded CRLF = true → validUtf8 encoded = true →
      (recvLoop [] chunks = RecvOutcome.protocolError t →
        runSession encoded decode chunks = SendResult.errProtocol t) ∧
      (recvLoop [] chunks = RecvOutcome.done body →
        runSession encoded decode chunks = liftDecode (decode body))) := by
  have h0 : ¬(chunk.length = 0) := by
    simpa using hc
  refine ⟨?_, ?_, ?_⟩
  · intro hend
    rw [recvLoop, if_neg h0, if_pos hend,
      show ENDPHRASE.length = 6 from by decide]
  · intro herr
    have hnend := error_suffix_not_ok _ herr
    rw [recvLoop, if_neg h0, if_neg (by simp [hnend]), if_pos herr]
  · intro hterm hutf
    constructor
    · intro hrecv
      rw [runSession, if_neg (by simp [hterm]), if_neg (by simp [hutf]), hrecv]
    · intro hrecv
      rw [runSession, if_neg (by simp [hterm]), if_neg (by simp [hutf]), hrecv]

/-- Witness for claim C1: the success marker split across two reads is
recognized once concatenated and stripped exactly; a buffer ending with
the failure marker yields the protocol error carrying the full text; a
full session ending in the failure marker returns the protocol error
without consulting decode. -/
theorem send_framing_witness :
    recvLoop (asciiBytes "AT\r\nOK") [[13, 10]] =
      RecvOutcome.done (asciiBytes "AT") ∧
    recvLoop (asciiBytes "x") [ERRORPHRASE] =
      RecvOutcome.protocolError (asciiBytes "x" ++ ERRORPHRASE) ∧
    runSession (asciiBytes "AT\r\n") (fun _ => DecodeResult.ok true)
        [asciiBytes "AT", asciiBytes "\r\nERROR\r\n"] =
      SendResult.errProtocol (asciiBytes "AT\r\nERROR\r\n") := by
  refine ⟨?_, ?_, ?_⟩
  · have h := (send_framing Bool (fun _ => DecodeResult.ok true)
      (asciiBytes "AT\r\n") (asciiBytes "AT\r\nOK") [13, 10] [] [] [] []
      (by decide)).1 (by decide)
    rw [h]
    decide
  · have h := (send_framing Bool (fun _ => DecodeResult.ok true)
      (asciiBytes "AT\r\n") (asciiBytes "x") ERRORPHRASE [] [] [] []
      (by decide)).2.1 (by decide)
    rw [h]
    decide
  · exact ((send_framing Bool (fun _ => DecodeResult.ok true)
      (asciiBytes "AT\r\n") [] [0] [] (asciiBytes "AT\r\nERROR\r\n") []
      [asciiBytes "AT", asciiBytes "\r\nERROR\r\n"] (by decide)).2.2
      (by decide) (by decide)).1 (by decide)

/-- Counterexample to claim C1 as stated: an accumulated buffer that ends
with the failure marker but contains an invalid UTF-8 byte makes the
receive loop panic (the `String::from_utf8(..).unwrap()`), it does not
abort with a protocol error carrying the accumulated text. -/
theorem send_framing_invalid_utf8_panics :
    endsWith (255 :: ERRORPHRASE) ERRORPHRASE = true ∧
    recvLoop [] [255 :: ERRORPHRASE] = RecvOutcome.panicked ∧
    recvLoop [] [255 :: ERRORPHRASE] ≠
      RecvOutcome.protocolError (255 :: ERRORPHRASE) := by
  decide

/-- Witness for claim C9: a concrete CRLF-terminated request never ends in
the terminator panic. -/
theorem encode_terminated_witness :
    runSession (asciiBytes "AT\r\n") (fun _ => DecodeResult.ok true) [] ≠
      SendResult.panickedTerminator :=
  encode_terminated.2.2.2.2.2.2.2.2.2 Bool (fun _ => DecodeResult.ok true)
    (asciiBytes "AT\r\n") [] (by decide)
